import Mathlib

/-!
Verification of the PubNubJson Arduino sketch
(`examples/PubNubJson/PubNubJson.ino`).

The sketch exchanges JSON documents (via the ArduinoJson v6 library) over a
PubNub channel.  We shallowly embed the JSON value universe, the three helper
functions `createMessage`, `processPwmInfo`, `dumpMessage`, and the body of
`loop`, as pure Lean functions producing an explicit trace of observable
events (serial prints, `delay` calls, PWM pin writes, connection `stop`
calls).  Machine integers never overflow in the ranges exercised here, so
they are modelled by `Int`/`Nat`.
-/

namespace PubNubJson

/-- The universe of ArduinoJson values: null, booleans, integers, strings,
arrays and objects (an object is an ordered list of key/value pairs, as in
the library's slot list). -/
inductive JVal where
  | null   : JVal
  | jbool  : Bool → JVal
  | jint   : Int → JVal
  | jstr   : String → JVal
  | arr    : List JVal → JVal
  | obj    : List (String × JVal) → JVal
deriving Repr

/-- Member lookup on an object's field list: the first binding of the key,
or JSON null when the key is absent (ArduinoJson `obj[key]`). -/
def member (fields : List (String × JVal)) (k : String) : JVal :=
  match fields with
  | [] => .null
  | (k', v) :: rest => if k' = k then v else member rest k

/-- `containsKey` on an object's field list. -/
def containsKey (fields : List (String × JVal)) (k : String) : Bool :=
  match fields with
  | [] => false
  | (k', _) :: rest => k' = k || containsKey rest k

/-- `as<JsonObject>()` conversion that keeps nullness: an object's fields,
or `none` (a null `JsonObject`) for any non-object value. -/
def asObjQ : JVal → Option (List (String × JVal))
  | .obj fs => some fs
  | _ => none

/-- `as<JsonArray>()` conversion that keeps nullness: an array's elements,
or `none` (a null `JsonArray`) for any non-array value. -/
def asArrQ : JVal → Option (List JVal)
  | .arr xs => some xs
  | _ => none

/-- `var.as<JsonObject>()` followed by member access: a null `JsonObject`
behaves exactly like an empty one (every lookup yields null, `containsKey`
is false), so it is modelled by the empty field list. -/
def asFields (v : JVal) : List (String × JVal) :=
  match v with
  | .obj fs => fs
  | _ => []

/-- ArduinoJson `is<int>()`: true exactly for values stored as integers. -/
def isIntV : JVal → Bool
  | .jint _ => true
  | _ => false

/-- ArduinoJson `as<int>()` coercion: integers are themselves, booleans map
to 1/0, numeric strings parse, everything else coerces to 0. -/
def asInt : JVal → Int
  | .jint n => n
  | .jbool b => if b then 1 else 0
  | .jstr s => (s.toInt?).getD 0
  | _ => 0

/-- Observable events of one `loop` iteration: serial prints of strings and
of numbers in DEC, line ends, `delay(ms)` calls, PWM pin writes
(`pinMode(pin, OUTPUT); analogWrite(pin, val)`), and `client->stop()` calls
on the named connection handle. -/
inductive Ev where
  | out      : String → Ev
  | outNum   : Int → Ev
  | newline  : Ev
  | delayMs  : Nat → Ev
  | pinWrite : Nat → Int → Ev
  | stop     : String → Ev
deriving Repr, DecidableEq

/-- `Serial.println(s)` / `s.println(str)`: print the string, end the line. -/
def prln (s : String) : List Ev := [Ev.out s, Ev.newline]

/-- The PWM pin writes contained in an event trace, in order. -/
def writes (tr : List Ev) : List (Nat × Int) :=
  tr.filterMap fun e =>
    match e with
    | .pinWrite p v => some (p, v)
    | _ => none

/-- Applying a list of PWM writes to a pin output state (later writes win). -/
def applyWrites (s : Nat → Int) : List (Nat × Int) → (Nat → Int)
  | [] => s
  | (p, v) :: rest => applyWrites (fun q => if q = p then v else s q) rest

/-- The fixed hardware identifier of the sketch:
`const static byte mac[] = { 0xDE, 0xAD, 0xBE, 0xEF, 0xFE, 0xED }`. -/
def mac : List Nat := [0xDE, 0xAD, 0xBE, 0xEF, 0xFE, 0xED]

/-- `createMessage`: builds the outbound document
`{"sender": {"name": "Arduino", "mac_last_byte": mac[5]}, "analog": [...]}`
from the six fresh `analogRead(i)` samples, `i = 0..5`. -/
def createMessage (analogRead : Nat → Int) : JVal :=
  .obj [("sender", .obj [("name", .jstr "Arduino"),
                         ("mac_last_byte", .jint (mac.getD 5 0))]),
        ("analog", .arr ((List.range 6).map fun i => .jint (analogRead i)))]

/-- The top-level keys of a document, in insertion order. -/
def topKeys (v : JVal) : List String :=
  (asFields v).map Prod.fst

/-- The target PWM pins of the sketch: `const static int pins[] = { 8, 9 }`. -/
def pins : List Nat := [8, 9]

/-- The trace `processPwmInfo` contributes for one target pin: skip silently
unless `pwm[pinstr].is<int>()`, else print the setting lines and write the
pin (`pinstr` is the decimal rendering produced by `snprintf`). -/
def pwmPinStep (pwm : List (String × JVal)) (pin : Nat) : List Ev :=
  let v := member pwm (toString pin)
  if isIntV v then
    [Ev.out " setting pin ", Ev.outNum (Int.ofNat pin),
     Ev.out " to value ", Ev.outNum (asInt v), Ev.newline,
     Ev.pinWrite pin (asInt v)]
  else []

/-- `processPwmInfo(item)`: if `item["pwm"]` is not an object the converted
`JsonObject` is null, so print the single diagnostic and return; otherwise
process each target pin in order. -/
def processPwmInfo (item : List (String × JVal)) : List Ev :=
  match asObjQ (member item "pwm") with
  | none => prln "no pwm data"
  | some pwm => pins.flatMap (pwmPinStep pwm)

/-- One body of `dumpMessage`'s range-for loop, for the current item `var`,
zero-based position `i` (the sketch prints `++i`, i.e. `i + 1`) and current
`sender_found` flag `sf`.  The result is the trace the body emits together
with `some sf'` (continue with updated flag) or `none` (the body executed
`return`, aborting the whole dump). -/
def stepItem (var : JVal) (i : Nat) (sf : Bool) : List Ev × Option Bool :=
  let obj := asFields var
  let hdr := [Ev.out "Msg #", Ev.outNum (Int.ofNat (i + 1)), Ev.newline]
             ++ processPwmInfo obj
  match asObjQ (member obj "sender") with
  | none => (hdr, some sf)
  | some sender =>
    let t1 := hdr ++ [Ev.out " mac_last_byte: "]
    if containsKey sender "mac_last_byte" = false then
      (t1 ++ prln "mac_last_byte not acquired" ++ [Ev.delayMs 1000], none)
    else
      let t2 := t1 ++ [Ev.outNum (asInt (member sender "mac_last_byte")),
                       Ev.out " A2: "]
      match asArrQ (member obj "analog") with
      | none => (t2 ++ prln "analog not acquired" ++ [Ev.delayMs 1000], none)
      | some analog =>
        if analog.length < 3 then
          (t2 ++ prln "analog[2] not acquired" ++ [Ev.delayMs 1000], none)
        else
          (t2 ++ [Ev.outNum (asInt (analog.getD 2 .null)), Ev.newline],
           some true)

/-- `dumpMessage`'s loop over the remaining items, threading the printed
index and the `sender_found` flag; the second component is `none` when some
body aborted (early `return`), else `some sender_found`. -/
def dumpLoop : List JVal → Nat → Bool → List Ev × Option Bool
  | [], _, sf => ([], some sf)
  | v :: rest, i, sf =>
    match stepItem v i sf with
    | (tr, none) => (tr, none)
    | (tr, some sf') =>
      let (tr', r) := dumpLoop rest (i + 1) sf'
      (tr ++ tr', r)

/-- `dumpMessage(s, response)`: run the loop; only when it completes is the
final `sender_found` check reached, printing its diagnostic (and delaying)
when no item anywhere contained a sender. -/
def dumpMessage (response : List JVal) : List Ev :=
  match dumpLoop response 0 false with
  | (tr, none) => tr
  | (tr, some sf) =>
    if sf then tr
    else tr ++ prln "sender not acquired" ++ [Ev.delayMs 1000]

mutual

/-- `serializeJson` rendering of a document (models the ArduinoJson
serializer; string escaping is not needed for the constants the sketch
prints). -/
def serialize : JVal → String
  | .null => "null"
  | .jbool b => if b then "true" else "false"
  | .jint n => toString n
  | .jstr s => "\"" ++ s ++ "\""
  | .arr xs => "[" ++ serializeItems xs ++ "]"
  | .obj fs => "\x7b" ++ serializeFields fs ++ "\x7d"

/-- Comma-separated rendering of array elements. -/
def serializeItems : List JVal → String
  | [] => ""
  | [x] => serialize x
  | x :: y :: xs => serialize x ++ "," ++ serializeItems (y :: xs)

/-- Comma-separated rendering of object members. -/
def serializeFields : List (String × JVal) → String
  | [] => ""
  | [(k, v)] => "\"" ++ k ++ "\":" ++ serialize v
  | (k, v) :: f :: fs =>
      "\"" ++ k ++ "\":" ++ serialize v ++ "," ++ serializeFields (f :: fs)

end

/-- The external results one `loop` iteration depends on: the six analog
samples, whether `PubNub.publish` / `PubNub.subscribe` return a valid
client, and the `deserializeJson` outcome (`none` = parse error, with the
error's `c_str()` text). -/
structure LoopInput where
  analogRead  : Nat → Int
  publishOk   : Bool
  subscribeOk : Bool
  parsed      : Option JVal
  errorStr    : String

/-- How one `loop` body ends: early `return` after a publish or subscribe
failure, the `while(true);` halt after a parse failure, or normal
completion. -/
inductive LoopExit where
  | pubFail | subFail | haltParse | done
deriving Repr, DecidableEq

/-- ArduinoJson capacity macro `JSON_OBJECT_SIZE(n)` = `n` slots of the
platform's `VariantSlot` size. -/
def JSON_OBJECT_SIZE (slot n : Nat) : Nat := n * slot

/-- ArduinoJson capacity macro `JSON_ARRAY_SIZE(n)` = `n` slots of the
platform's `VariantSlot` size. -/
def JSON_ARRAY_SIZE (slot n : Nat) : Nat := n * slot

/-- `int const slack = 100` — additional data for copying strings. -/
def slack : Nat := 100

/-- `int const maxmsg = 2` — max expected messages in a subscribe response. -/
def maxmsg : Nat := 2

/-- `int const json_elem_size = 2 * JSON_OBJECT_SIZE(2) + JSON_ARRAY_SIZE(6)`,
parametrised by the platform's slot size. -/
def json_elem_size (slot : Nat) : Nat :=
  2 * JSON_OBJECT_SIZE slot 2 + JSON_ARRAY_SIZE slot 6

/-- `int const capacity = maxmsg * json_elem_size + slack`. -/
def capacity (slot : Nat) : Nat := maxmsg * json_elem_size slot + slack

/-- The capacity formula as the specification words it:
2 messages × (2-entry object + 6-entry array) + slack.  Stated only to be
compared against the source's `capacity`. -/
def specCapacity (slot : Nat) : Nat :=
  2 * (JSON_OBJECT_SIZE slot 2 + JSON_ARRAY_SIZE slot 6) + slack

/-- The separator line the loop prints first: 53 equals signs. -/
def sepLine : String := String.mk (List.replicate 53 '=')

/-- The body of `loop()` as a trace: publish phase (build, serialize and
print the message, publish, stop the handle), subscribe phase (subscribe,
parse, dump, stop the handle), with the sketch's early returns and the
`while(true);` fail-stop on parse errors.  `Ethernet.maintain()` performs
no observable action modelled here. -/
def loopIter (inp : LoopInput) : List Ev × LoopExit :=
  let msg := createMessage inp.analogRead
  let head :=
    prln sepLine
    ++ [Ev.out "publishing a message: "] ++ prln (serialize msg)
  if inp.publishOk = false then
    (head ++ prln "publishing error" ++ [Ev.delayMs 1000], .pubFail)
  else
    let h2 := head ++ [Ev.stop "publish"]
              ++ prln "waiting for a message (subscribe)"
    if inp.subscribeOk = false then
      (h2 ++ prln "subscription error" ++ [Ev.delayMs 1000], .subFail)
    else
      match inp.parsed with
      | none =>
        (h2 ++ [Ev.out "deserializeJson() failed with code "]
            ++ prln inp.errorStr, .haltParse)
      | some doc =>
        (h2 ++ dumpMessage ((asArrQ doc).getD [])
            ++ [Ev.stop "subscribe"] ++ prln "--subscribe--"
            ++ [Ev.delayMs 10000], .done)

/-- The platform's outer scheduling loop: `loop()` is re-invoked after each
return, but the `while(true);` of the parse-failure branch never returns,
so no later iteration runs and no further event is ever emitted. -/
def runLoop : List LoopInput → List Ev
  | [] => []
  | inp :: rest =>
    match loopIter inp with
    | (tr, .haltParse) => tr
    | (tr, _) => tr ++ runLoop rest

/-! ### Basic lemmas about the dump loop and the PWM applier -/

theorem dumpLoop_cons_none (v : JVal) (rest : List JVal) (i : Nat) (sf : Bool)
    (tr : List Ev) (h : stepItem v i sf = (tr, none)) :
    dumpLoop (v :: rest) i sf = (tr, none) := by
  simp [dumpLoop, h]

theorem dumpLoop_cons_some (v : JVal) (rest : List JVal) (i : Nat)
    (sf sf' : Bool) (tr : List Ev) (h : stepItem v i sf = (tr, some sf')) :
    dumpLoop (v :: rest) i sf
      = (tr ++ (dumpLoop rest (i + 1) sf').1, (dumpLoop rest (i + 1) sf').2) := by
  simp [dumpLoop, h]

theorem dumpLoop_append (pre l : List JVal) (i : Nat) (sf sf' : Bool)
    (h : (dumpLoop pre i sf).2 = some sf') :
    dumpLoop (pre ++ l) i sf
      = ((dumpLoop pre i sf).1 ++ (dumpLoop l (i + pre.length) sf').1,
         (dumpLoop l (i + pre.length) sf').2) := by
  induction pre generalizing i sf with
  | nil =>
    have hsf : sf = sf' := by simpa [dumpLoop] using h
    subst hsf
    simp [dumpLoop]
  | cons v rest ih =>
    rcases h1 : stepItem v i sf with ⟨tr, r⟩
    cases r with
    | none =>
      rw [dumpLoop_cons_none v rest i sf tr h1] at h
      simp at h
    | some sf2 =>
      rw [dumpLoop_cons_some v rest i sf sf2 tr h1] at h
      have := ih (i + 1) sf2 h
      rw [List.cons_append, dumpLoop_cons_some v (rest ++ l) i sf sf2 tr h1,
          dumpLoop_cons_some v rest i sf sf2 tr h1, this]
      simp [Nat.add_comm, Nat.add_assoc, Nat.add_left_comm]

theorem writes_append (a b : List Ev) : writes (a ++ b) = writes a ++ writes b := by
  simp [writes]

theorem writes_pwmPinStep (pwm : List (String × JVal)) (pin : Nat) :
    writes (pwmPinStep pwm pin)
      = if isIntV (member pwm (toString pin))
        then [(pin, asInt (member pwm (toString pin)))] else [] := by
  simp only [pwmPinStep, writes]
  split
  · rfl
  · rfl

theorem count_pwmPinStep (pwm : List (String × JVal)) (pin : Nat) :
    (pwmPinStep pwm pin).count (Ev.out " setting pin ")
      = if isIntV (member pwm (toString pin)) then 1 else 0 := by
  simp only [pwmPinStep]
  split
  · simp [List.count_cons]
  · simp

theorem pwmPinStep_no_sender_diag (pwm : List (String × JVal)) (pin : Nat) :
    Ev.out "sender not acquired" ∉ pwmPinStep pwm pin := by
  simp only [pwmPinStep]
  split
  · simp
  · simp

theorem processPwm_no_sender_diag (fs : List (String × JVal)) :
    Ev.out "sender not acquired" ∉ processPwmInfo fs := by
  unfold processPwmInfo
  split
  · simp [prln]
  · intro hmem
    simp only [pins, List.flatMap_cons, List.flatMap_nil, List.append_nil,
      List.mem_append] at hmem
    rcases hmem with h | h
    · exact pwmPinStep_no_sender_diag _ 8 h
    · exact pwmPinStep_no_sender_diag _ 9 h

theorem stepItem_mem (v : JVal) (i : Nat) (sf : Bool) (e : Ev)
    (he : e ∈ (stepItem v i sf).1) :
    e ∈ processPwmInfo (asFields v) ∨ (∃ n, e = Ev.outNum n)
    ∨ e ∈ [Ev.out "Msg #", Ev.newline, Ev.out " mac_last_byte: ",
           Ev.out "mac_last_byte not acquired", Ev.delayMs 1000,
           Ev.out " A2: ", Ev.out "analog not acquired",
           Ev.out "analog[2] not acquired"] := by
  simp only [stepItem] at he
  repeat' split at he
  all_goals
    simp only [prln, List.append_assoc, List.cons_append, List.nil_append,
      List.mem_append, List.mem_cons, List.not_mem_nil, or_false] at he
  all_goals aesop

theorem stepItem_no_sender_diag (v : JVal) (i : Nat) (sf : Bool) :
    Ev.out "sender not acquired" ∉ (stepItem v i sf).1 := by
  intro h
  rcases stepItem_mem v i sf _ h with hp | ⟨n, hn⟩ | hfix
  · exact processPwm_no_sender_diag _ hp
  · simp at hn
  · simp at hfix

theorem dumpLoop_no_sender_diag (l : List JVal) (i : Nat) (sf : Bool) :
    Ev.out "sender not acquired" ∉ (dumpLoop l i sf).1 := by
  induction l generalizing i sf with
  | nil => simp [dumpLoop]
  | cons v rest ih =>
    rcases h1 : stepItem v i sf with ⟨tr, r⟩
    cases r with
    | none =>
      rw [dumpLoop_cons_none v rest i sf tr h1]
      have := stepItem_no_sender_diag v i sf
      rw [h1] at this
      exact this
    | some sf' =>
      rw [dumpLoop_cons_some v rest i sf sf' tr h1]
      intro h
      rcases List.mem_append.mp h with h | h
      · have := stepItem_no_sender_diag v i sf
        rw [h1] at this
        exact this h
      · exact ih (i + 1) sf' h

theorem stepItem_no_sender (v : JVal) (i : Nat) (sf : Bool)
    (h : asObjQ (member (asFields v) "sender") = none) :
    stepItem v i sf
      = ([Ev.out "Msg #", Ev.outNum (Int.ofNat (i + 1)), Ev.newline]
          ++ processPwmInfo (asFields v), some sf) := by
  simp [stepItem, h]

theorem dumpLoop_no_sender (l : List JVal) (i : Nat) (sf : Bool)
    (h : ∀ v ∈ l, asObjQ (member (asFields v) "sender") = none) :
    (dumpLoop l i sf).2 = some sf := by
  induction l generalizing i sf with
  | nil => simp [dumpLoop]
  | cons v rest ih =>
    have hv := h v (List.mem_cons_self v rest)
    rw [dumpLoop_cons_some v rest i sf sf _ (stepItem_no_sender v i sf hv)]
    exact ih (i + 1) sf fun w hw => h w (List.mem_cons_of_mem v hw)

theorem stepItem_writes (v : JVal) (i : Nat) (sf : Bool) :
    writes (stepItem v i sf).1 = writes (processPwmInfo (asFields v)) := by
  rcases hs : asObjQ (member (asFields v) "sender") with _ | sender
  · simp [stepItem, hs, writes, prln]
  · cases hk : containsKey sender "mac_last_byte" with
    | false => simp [stepItem, hs, hk, writes, prln]
    | true =>
      rcases hA : asArrQ (member (asFields v) "analog") with _ | analog
      · simp [stepItem, hs, hk, hA, writes, prln]
      · by_cases hlen : analog.length < 3 <;>
          simp [stepItem, hs, hk, hA, hlen, writes, prln]

theorem stepItem_sender_noMac (v : JVal) (i : Nat) (sf : Bool)
    (sender : List (String × JVal))
    (hs : asObjQ (member (asFields v) "sender") = some sender)
    (hk : containsKey sender "mac_last_byte" = false) :
    stepItem v i sf
      = ([Ev.out "Msg #", Ev.outNum (Int.ofNat (i + 1)), Ev.newline]
          ++ processPwmInfo (asFields v)
          ++ [Ev.out " mac_last_byte: ", Ev.out "mac_last_byte not acquired",
              Ev.newline, Ev.delayMs 1000], none) := by
  simp [stepItem, hs, hk, prln]

theorem stepItem_sender_analogNone (v : JVal) (i : Nat) (sf : Bool)
    (sender : List (String × JVal))
    (hs : asObjQ (member (asFields v) "sender") = some sender)
    (hk : containsKey sender "mac_last_byte" = true)
    (hA : asArrQ (member (asFields v) "analog") = none) :
    stepItem v i sf
      = ([Ev.out "Msg #", Ev.outNum (Int.ofNat (i + 1)), Ev.newline]
          ++ processPwmInfo (asFields v)
          ++ [Ev.out " mac_last_byte: ",
              Ev.outNum (asInt (member sender "mac_last_byte")), Ev.out " A2: ",
              Ev.out "analog not acquired", Ev.newline, Ev.delayMs 1000],
         none) := by
  simp [stepItem, hs, hk, hA, prln]

theorem stepItem_sender_analogShort (v : JVal) (i : Nat) (sf : Bool)
    (sender : List (String × JVal)) (analog : List JVal)
    (hs : asObjQ (member (asFields v) "sender") = some sender)
    (hk : containsKey sender "mac_last_byte" = true)
    (hA : asArrQ (member (asFields v) "analog") = some analog)
    (hlen : analog.length < 3) :
    stepItem v i sf
      = ([Ev.out "Msg #", Ev.outNum (Int.ofNat (i + 1)), Ev.newline]
          ++ processPwmInfo (asFields v)
          ++ [Ev.out " mac_last_byte: ",
              Ev.outNum (asInt (member sender "mac_last_byte")), Ev.out " A2: ",
              Ev.out "analog[2] not acquired", Ev.newline, Ev.delayMs 1000],
         none) := by
  simp [stepItem, hs, hk, hA, hlen, prln]

theorem stepItem_sender_ok (v : JVal) (i : Nat) (sf : Bool)
    (sender : List (String × JVal)) (analog : List JVal)
    (hs : asObjQ (member (asFields v) "sender") = some sender)
    (hk : containsKey sender "mac_last_byte" = true)
    (hA : asArrQ (member (asFields v) "analog") = some analog)
    (hlen : ¬ analog.length < 3) :
    stepItem v i sf
      = ([Ev.out "Msg #", Ev.outNum (Int.ofNat (i + 1)), Ev.newline]
          ++ processPwmInfo (asFields v)
          ++ [Ev.out " mac_last_byte: ",
              Ev.outNum (asInt (member sender "mac_last_byte")), Ev.out " A2: ",
              Ev.outNum (asInt (analog.getD 2 JVal.null)), Ev.newline],
         some true) := by
  simp [stepItem, hs, hk, hA, hlen, prln]

theorem dumpMessage_abort_at (pre : List JVal) (item : JVal) (rest : List JVal)
    (tpre t : List Ev) (sf : Bool)
    (hpre : dumpLoop pre 0 false = (tpre, some sf))
    (hstep : stepItem item pre.length sf = (t, none)) :
    dumpMessage (pre ++ item :: rest) = tpre ++ t := by
  have h2 : (dumpLoop pre 0 false).2 = some sf := by rw [hpre]
  have h3 := dumpLoop_append pre (item :: rest) 0 false sf h2
  rw [hpre] at h3
  simp only [Nat.zero_add] at h3
  rw [dumpLoop_cons_none item rest pre.length sf t hstep] at h3
  simp [dumpMessage, h3]

theorem processPwm_some (item : List (String × JVal))
    (pwm : List (String × JVal)) (hp : asObjQ (member item "pwm") = some pwm) :
    processPwmInfo item = pwmPinStep pwm 8 ++ pwmPinStep pwm 9 := by
  simp [processPwmInfo, hp, pins]

theorem pwmPinStep_no_pwm_diag (pwm : List (String × JVal)) (pin : Nat) :
    Ev.out "no pwm data" ∉ pwmPinStep pwm pin := by
  simp only [pwmPinStep]
  split
  · simp
  · simp

/-! ### The claims -/

/-- **C1.** For any six integer analog samples and the fixed hardware
identifier, `createMessage` produces an outbound document with exactly two
top-level keys, `sender` and `analog`; `analog` has length exactly 6 and
holds the samples in sampled order (`analogRead 0`, …, `analogRead 5`);
`sender.name` is the string constant `"Arduino"`; and
`sender.mac_last_byte` equals `mac[5]` = 0xED. -/
theorem createMessage_shape (f : Nat → Int) :
    topKeys (createMessage f) = ["sender", "analog"]
    ∧ member (asFields (member (asFields (createMessage f)) "sender")) "name"
        = JVal.jstr "Arduino"
    ∧ member (asFields (member (asFields (createMessage f)) "sender"))
        "mac_last_byte" = JVal.jint (Int.ofNat (mac.getD 5 0))
    ∧ mac.getD 5 0 = 0xED
    ∧ asArrQ (member (asFields (createMessage f)) "analog")
        = some ((List.range 6).map fun i => JVal.jint (f i))
    ∧ ((List.range 6).map fun i => JVal.jint (f i)).length = 6 := by
  refine ⟨rfl, rfl, ?_, rfl, rfl, rfl⟩
  simp [createMessage, asFields, member, mac]

/-- **C2.** For every inbound array and every item in it whose `sender`
sub-object is present: missing `mac_last_byte`, or an absent or too-short
`analog` sequence, makes `dumpMessage` print the diagnostic line, delay
1000 ms and return, aborting the whole dump with no further item processed
and without printing the analog value; when both fields are adequate it
prints `mac_last_byte` and `analog[2]`. -/
theorem dump_sender_item_policy
    (pre : List JVal) (item : JVal) (rest : List JVal)
    (sender : List (String × JVal)) (tpre : List Ev) (sf : Bool)
    (hpre : dumpLoop pre 0 false = (tpre, some sf))
    (hs : asObjQ (member (asFields item) "sender") = some sender) :
    (containsKey sender "mac_last_byte" = false →
      dumpMessage (pre ++ item :: rest)
        = tpre
          ++ ([Ev.out "Msg #", Ev.outNum (Int.ofNat (pre.length + 1)),
               Ev.newline]
              ++ processPwmInfo (asFields item)
              ++ [Ev.out " mac_last_byte: ",
                  Ev.out "mac_last_byte not acquired", Ev.newline,
                  Ev.delayMs 1000]))
    ∧ (containsKey sender "mac_last_byte" = true →
        asArrQ (member (asFields item) "analog") = none →
        dumpMessage (pre ++ item :: rest)
          = tpre
            ++ ([Ev.out "Msg #", Ev.outNum (Int.ofNat (pre.length + 1)),
                 Ev.newline]
                ++ processPwmInfo (asFields item)
                ++ [Ev.out " mac_last_byte: ",
                    Ev.outNum (asInt (member sender "mac_last_byte")),
                    Ev.out " A2: ", Ev.out "analog not acquired", Ev.newline,
                    Ev.delayMs 1000]))
    ∧ (∀ analog : List JVal, containsKey sender "mac_last_byte" = true →
        asArrQ (member (asFields item) "analog") = some analog →
        analog.length < 3 →
        dumpMessage (pre ++ item :: rest)
          = tpre
            ++ ([Ev.out "Msg #", Ev.outNum (Int.ofNat (pre.length + 1)),
                 Ev.newline]
                ++ processPwmInfo (asFields item)
                ++ [Ev.out " mac_last_byte: ",
                    Ev.outNum (asInt (member sender "mac_last_byte")),
                    Ev.out " A2: ", Ev.out "analog[2] not acquired",
                    Ev.newline, Ev.delayMs 1000]))
    ∧ (∀ analog : List JVal, containsKey sender "mac_last_byte" = true →
        asArrQ (member (asFields item) "analog") = some analog →
        3 ≤ analog.length →
        stepItem item pre.length sf
          = ([Ev.out "Msg #", Ev.outNum (Int.ofNat (pre.length + 1)),
              Ev.newline]
              ++ processPwmInfo (asFields item)
              ++ [Ev.out " mac_last_byte: ",
                  Ev.outNum (asInt (member sender "mac_last_byte")),
                  Ev.out " A2: ",
                  Ev.outNum (asInt (analog.getD 2 JVal.null)), Ev.newline],
             some true)) := by
  refine ⟨?_, ?_, ?_, ?_⟩
  · intro hk
    exact dumpMessage_abort_at pre item rest tpre _ sf hpre
      (stepItem_sender_noMac item pre.length sf sender hs hk)
  · intro hk hA
    exact dumpMessage_abort_at pre item rest tpre _ sf hpre
      (stepItem_sender_analogNone item pre.length sf sender hs hk hA)
  · intro analog hk hA hlen
    exact dumpMessage_abort_at pre item rest tpre _ sf hpre
      (stepItem_sender_analogShort item pre.length sf sender analog hs hk hA hlen)
  · intro analog hk hA hlen
    exact stepItem_sender_ok item pre.length sf sender analog hs hk hA
      (by omega)

/-- Witness for C2: the single-item array `[{"sender": {}}]` aborts the
dump with the `mac_last_byte` diagnostic and the 1000 ms delay. -/
theorem dump_sender_item_policy_witness :
    dumpMessage [JVal.obj [("sender", JVal.obj [])]]
      = [Ev.out "Msg #", Ev.outNum 1, Ev.newline,
         Ev.out "no pwm data", Ev.newline,
         Ev.out " mac_last_byte: ",
         Ev.out "mac_last_byte not acquired", Ev.newline, Ev.delayMs 1000] := by
  have h := (dump_sender_item_policy [] (JVal.obj [("sender", JVal.obj [])]) []
      [] [] false rfl rfl).1 rfl
  simpa [processPwmInfo, member, asFields, asObjQ, prln] using h

/-- **C3.** `processPwmInfo` handles absence by omission: when `pwm` is
absent it performs no pin write and emits exactly the one diagnostic line;
when `pwm` is present, a target pin whose entry is absent or not an
integer is skipped with no write and no output at all for that pin (the
`" setting pin "` marker appears exactly once per performed write, and the
`"no pwm data"` diagnostic is not emitted), while each integer entry is
applied as that pin's duty-cycle value. -/
theorem processPwm_policy (item : List (String × JVal)) :
    (asObjQ (member item "pwm") = none →
      processPwmInfo item = [Ev.out "no pwm data", Ev.newline]
      ∧ writes (processPwmInfo item) = [])
    ∧ (∀ pwm : List (String × JVal), asObjQ (member item "pwm") = some pwm →
        (writes (processPwmInfo item)
          = (if isIntV (member pwm "8") then [(8, asInt (member pwm "8"))]
             else [])
            ++ (if isIntV (member pwm "9") then [(9, asInt (member pwm "9"))]
                else []))
        ∧ (∀ p ∈ pins, isIntV (member pwm (toString p)) = false →
            ∀ w : Int, (p, w) ∉ writes (processPwmInfo item))
        ∧ (∀ p ∈ pins, ∀ n : Int, member pwm (toString p) = JVal.jint n →
            (p, n) ∈ writes (processPwmInfo item))
        ∧ Ev.out "no pwm data" ∉ processPwmInfo item
        ∧ (processPwmInfo item).count (Ev.out " setting pin ")
            = (writes (processPwmInfo item)).length) := by
  have t8 : toString (8 : Nat) = "8" := rfl
  have t9 : toString (9 : Nat) = "9" := rfl
  constructor
  · intro hp
    constructor
    · simp [processPwmInfo, hp, prln]
    · simp [processPwmInfo, hp, prln, writes]
  · intro pwm hp
    have htr := processPwm_some item pwm hp
    have hw : writes (processPwmInfo item)
        = (if isIntV (member pwm "8") then [(8, asInt (member pwm "8"))]
           else [])
          ++ (if isIntV (member pwm "9") then [(9, asInt (member pwm "9"))]
              else []) := by
      rw [htr, writes_append, writes_pwmPinStep, writes_pwmPinStep, t8, t9]
    refine ⟨hw, ?_, ?_, ?_, ?_⟩
    · intro p hp' hnot w hmem
      rw [hw] at hmem
      simp only [pins, List.mem_cons, List.not_mem_nil, or_false] at hp'
      rcases hp' with rfl | rfl
      · rw [t8] at hnot
        simp only [hnot, Bool.false_eq_true, if_false, List.nil_append] at hmem
        split at hmem <;> simp_all
      · rw [t9] at hnot
        simp only [hnot, Bool.false_eq_true, if_false, List.append_nil] at hmem
        split at hmem <;> simp_all
    · intro p hp' n hval
      rw [hw]
      simp only [pins, List.mem_cons, List.not_mem_nil, or_false] at hp'
      rcases hp' with rfl | rfl
      · rw [t8] at hval
        simp [hval, isIntV, asInt]
      · rw [t9] at hval
        simp [hval, isIntV, asInt]
    · rw [htr]
      intro hmem
      rcases List.mem_append.mp hmem with h | h
      · exact pwmPinStep_no_pwm_diag pwm 8 h
      · exact pwmPinStep_no_pwm_diag pwm 9 h
    · rw [htr, List.count_append, count_pwmPinStep, count_pwmPinStep,
        writes_append, writes_pwmPinStep, writes_pwmPinStep, t8, t9]
      by_cases c8 : isIntV (member pwm "8") = true <;>
        by_cases c9 : isIntV (member pwm "9") = true <;>
          simp [c8, c9]

/-- Witness for C3: `{"pwm": {"8": 200}}` writes pin 8 and, with `pwm`
absent, `{"x": 1}` produces exactly the single diagnostic line. -/
theorem processPwm_policy_witness :
    (processPwmInfo [("x", JVal.jint 1)] = [Ev.out "no pwm data", Ev.newline])
    ∧ (8, 200) ∈ writes (processPwmInfo [("pwm", JVal.obj [("8", JVal.jint 200)])]) := by
  constructor
  · exact ((processPwm_policy [("x", JVal.jint 1)]).1 rfl).1
  · exact ((processPwm_policy [("pwm", JVal.obj [("8", JVal.jint 200)])]).2
      [("8", JVal.jint 200)] rfl).2.2.1 8 (by simp [pins]) 200 rfl

/-- **C4.** For the inbound item `{"pwm": {"8": 200}}`, the PWM applier
sets pin 8's output to 200, and every pin other than 8 (pin 9 in
particular) keeps its previous output state. -/
theorem pwm_pin8_frame (s0 : Nat → Int) (p : Nat) (hp : p ≠ 8) :
    applyWrites s0
      (writes (processPwmInfo [("pwm", JVal.obj [("8", JVal.jint 200)])])) 8
      = 200
    ∧ applyWrites s0
        (writes (processPwmInfo [("pwm", JVal.obj [("8", JVal.jint 200)])])) p
        = s0 p := by
  have hw : writes (processPwmInfo [("pwm", JVal.obj [("8", JVal.jint 200)])])
      = [(8, 200)] := rfl
  rw [hw]
  constructor
  · simp [applyWrites]
  · simp [applyWrites, hp]

/-- Witness for C4: from the all-zero pin state, pin 8 becomes 200 and pin
9 stays 0. -/
theorem pwm_pin8_frame_witness :
    applyWrites (fun _ => 0)
      (writes (processPwmInfo [("pwm", JVal.obj [("8", JVal.jint 200)])])) 8
      = 200
    ∧ applyWrites (fun _ => 0)
        (writes (processPwmInfo [("pwm", JVal.obj [("8", JVal.jint 200)])])) 9
        = 0 := by
  exact ⟨(pwm_pin8_frame (fun _ => 0) 9 (by decide)).1,
         (pwm_pin8_frame (fun _ => 0) 9 (by decide)).2⟩

/-- **C5.** When the subscription payload fails to parse, the loop body
prints the single failure diagnostic as its final output, ends in the
`while(true);` halted state, the Subscription Dumper is never invoked (the
complete trace is exactly the publish/subscribe prelude plus the failure
line), and no subsequent iteration runs or prints anything. -/
theorem loop_parse_failure_halts (inp : LoopInput) (rest : List LoopInput)
    (hpub : inp.publishOk = true) (hsub : inp.subscribeOk = true)
    (hparse : inp.parsed = none) :
    (loopIter inp).2 = LoopExit.haltParse
    ∧ (loopIter inp).1
        = [Ev.out sepLine,
           Ev.newline, Ev.out "publishing a message: ",
           Ev.out (serialize (createMessage inp.analogRead)), Ev.newline,
           Ev.stop "publish",
           Ev.out "waiting for a message (subscribe)", Ev.newline,
           Ev.out "deserializeJson() failed with code ",
           Ev.out inp.errorStr, Ev.newline]
    ∧ runLoop (inp :: rest) = (loopIter inp).1 := by
  have h2 : (loopIter inp).2 = LoopExit.haltParse := by
    simp [loopIter, hpub, hsub, hparse]
  refine ⟨h2, ?_, ?_⟩
  · simp [loopIter, hpub, hsub, hparse, prln]
  · rcases hLI : loopIter inp with ⟨tr, ex⟩
    rw [hLI] at h2
    have hex : ex = LoopExit.haltParse := by simpa using h2
    subst hex
    simp [runLoop, hLI]

/-- Witness for C5: a concrete iteration whose payload fails to parse
halts, and the outer loop produces nothing beyond that iteration's trace. -/
theorem loop_parse_failure_halts_witness :
    (loopIter (LoopInput.mk (fun _ => 0) true true none "EmptyInput")).2
      = LoopExit.haltParse
    ∧ runLoop [LoopInput.mk (fun _ => 0) true true none "EmptyInput"]
      = (loopIter (LoopInput.mk (fun _ => 0) true true none "EmptyInput")).1 := by
  exact ⟨(loop_parse_failure_halts _ [] rfl rfl rfl).1,
         (loop_parse_failure_halts _ [] rfl rfl rfl).2.2⟩

/-- **C6.** On an inbound array in which no item has a `sender` sub-object
(the empty array included), the dump loop completes without aborting, the
"sender not acquired" diagnostic is emitted exactly once, followed by the
fixed delay; and whenever a dump ran to completion having found a sender,
that diagnostic is not emitted at all. -/
theorem dump_all_sender_missing (response : List JVal)
    (h : ∀ v ∈ response, asObjQ (member (asFields v) "sender") = none) :
    (dumpLoop response 0 false).2 = some false
    ∧ dumpMessage response
        = (dumpLoop response 0 false).1
          ++ [Ev.out "sender not acquired", Ev.newline, Ev.delayMs 1000]
    ∧ (dumpMessage response).count (Ev.out "sender not acquired") = 1
    ∧ (∀ r2 : List JVal, (dumpLoop r2 0 false).2 = some true →
        (dumpMessage r2).count (Ev.out "sender not acquired") = 0) := by
  have hc := dumpLoop_no_sender response 0 false h
  have hmsg : dumpMessage response
      = (dumpLoop response 0 false).1
        ++ [Ev.out "sender not acquired", Ev.newline, Ev.delayMs 1000] := by
    rcases hdl : dumpLoop response 0 false with ⟨tr, r⟩
    rw [hdl] at hc
    have hr : r = some false := by simpa using hc
    subst hr
    simp [dumpMessage, hdl, prln]
  refine ⟨hc, hmsg, ?_, ?_⟩
  · rw [hmsg, List.count_append,
      List.count_eq_zero.mpr (dumpLoop_no_sender_diag response 0 false)]
    decide
  · intro r2 h2
    rcases hdl : dumpLoop r2 0 false with ⟨tr, r⟩
    rw [hdl] at h2
    have hr : r = some true := by simpa using h2
    subst hr
    have hm2 : dumpMessage r2 = tr := by simp [dumpMessage, hdl]
    rw [hm2]
    refine List.count_eq_zero.mpr ?_
    have := dumpLoop_no_sender_diag r2 0 false
    rw [hdl] at this
    exact this

/-- Witness for C6: a one-item array without a sender yields exactly one
"sender not acquired" diagnostic. -/
theorem dump_all_sender_missing_witness :
    (dumpMessage [JVal.obj [("x", JVal.jint 1)]]).count
      (Ev.out "sender not acquired") = 1 := by
  exact (dump_all_sender_missing [JVal.obj [("x", JVal.jint 1)]]
    (by intro v hv; rw [List.mem_singleton] at hv; subst hv; rfl)).2.2.1

/-- Counterexample to C7 as stated: on the parse-failure path the
subscribe connection handle was successfully acquired, yet no `stop` of it
ever occurs — the iteration's complete (and, by C5, final) event trace
contains no `stop "subscribe"`, so that path holds an unreleased handle. -/
theorem loop_subscribe_stop_missing_on_halt :
    (LoopInput.mk (fun _ => 0) true true none "EmptyInput").subscribeOk = true
    ∧ Ev.stop "subscribe"
        ∉ (loopIter (LoopInput.mk (fun _ => 0) true true none "EmptyInput")).1 := by
  refine ⟨rfl, ?_⟩
  decide

/-- **C7 (amended).** The publish handle, once acquired, is stopped on
every path.  The subscribe handle is stopped on every path by which
control leaves the iteration — but on the parse-failure path, which never
leaves the iteration (`while(true);`), the acquired subscribe handle is
never stopped. -/
theorem loop_connection_release (inp : LoopInput) :
    (inp.publishOk = true → Ev.stop "publish" ∈ (loopIter inp).1)
    ∧ (inp.publishOk = true → inp.subscribeOk = true →
        (loopIter inp).2 ≠ LoopExit.haltParse →
        Ev.stop "subscribe" ∈ (loopIter inp).1)
    ∧ ((loopIter inp).2 = LoopExit.haltParse →
        Ev.stop "subscribe" ∉ (loopIter inp).1) := by
  rcases inp with ⟨f, pub, sub, parsed, err⟩
  cases pub <;> cases sub <;> rcases parsed with _ | doc <;>
    simp [loopIter, prln]

/-- Witness for C7 (amended): on a completing iteration both handles are
stopped. -/
theorem loop_connection_release_witness :
    Ev.stop "publish"
      ∈ (loopIter (LoopInput.mk (fun _ => 0) true true (some (JVal.arr [])) "")).1
    ∧ Ev.stop "subscribe"
      ∈ (loopIter (LoopInput.mk (fun _ => 0) true true (some (JVal.arr [])) "")).1 := by
  exact ⟨(loop_connection_release _).1 rfl,
         (loop_connection_release _).2.1 rfl rfl (by decide)⟩

/-- Counterexample to C8 as stated: with 8-byte variant slots (AVR) the
code computes capacity 260, while the spec's formula
2 × (JSON_OBJECT_SIZE(2) + JSON_ARRAY_SIZE(6)) + 100 gives 228. -/
theorem capacity_formula_counterexample :
    capacity 8 = 260 ∧ specCapacity 8 = 228 ∧ capacity 8 ≠ specCapacity 8 := by
  decide

/-- **C8 (amended).** The computed capacity equals
2 × (2 × JSON_OBJECT_SIZE(2) + JSON_ARRAY_SIZE(6)) + slack with
slack = 100: one expected message costs two 2-entry objects plus one
6-entry array, not one object plus one array as the spec's formula says. -/
theorem capacity_formula (slot : Nat) :
    capacity slot
      = 2 * (2 * JSON_OBJECT_SIZE slot 2 + JSON_ARRAY_SIZE slot 6) + 100
    ∧ slack = 100 ∧ maxmsg = 2 := by
  refine ⟨?_, rfl, rfl⟩
  simp [capacity, maxmsg, slack, json_elem_size]

/-- **C9.** The dump's early abort is not atomic with respect to pin
state: when the dump aborts on some item, the final trace is exactly the
completed prefix plus the aborting item's trace, its PWM writes are the
prefix's writes followed by the aborting item's own PWM writes (nothing is
rolled back, the remaining items are merely skipped), and the aborting
item's writes are exactly those of its full PWM processing, which ran
before the sender checks. -/
theorem dump_abort_preserves_writes
    (pre : List JVal) (item : JVal) (rest : List JVal)
    (tpre t : List Ev) (sf : Bool)
    (hpre : dumpLoop pre 0 false = (tpre, some sf))
    (hstep : stepItem item pre.length sf = (t, none)) :
    dumpMessage (pre ++ item :: rest) = tpre ++ t
    ∧ writes (dumpMessage (pre ++ item :: rest)) = writes tpre ++ writes t
    ∧ writes t = writes (processPwmInfo (asFields item)) := by
  have h1 := dumpMessage_abort_at pre item rest tpre t sf hpre hstep
  have h3 : writes t = writes (processPwmInfo (asFields item)) := by
    have h4 := stepItem_writes item pre.length sf
    rw [hstep] at h4
    exact h4
  exact ⟨h1, by rw [h1, writes_append], h3⟩

/-- Witness for C9: a first item writes pin 8, the second item aborts the
dump, a third is skipped — and the write to pin 8 survives in the dump's
trace. -/
theorem dump_abort_preserves_writes_witness :
    writes (dumpMessage
        [JVal.obj [("pwm", JVal.obj [("8", JVal.jint 200)])],
         JVal.obj [("sender", JVal.obj [])],
         JVal.obj []])
      = [(8, 200)] := by
  have h := dump_abort_preserves_writes
      [JVal.obj [("pwm", JVal.obj [("8", JVal.jint 200)])]]
      (JVal.obj [("sender", JVal.obj [])])
      [JVal.obj []] _ _ _ rfl rfl
  have h2 := h.2.1
  simp only [List.cons_append, List.nil_append] at h2
  rw [h2]
  rfl

theorem pwmPinStep_out_mem (pwm : List (String × JVal)) (pin : Nat)
    (s : String) (h : Ev.out s ∈ pwmPinStep pwm pin) :
    s = " setting pin " ∨ s = " to value " := by
  simp only [pwmPinStep] at h
  split at h
  · simp only [List.mem_cons, List.not_mem_nil, or_false] at h
    rcases h with h | h | h | h | h | h <;> simp_all
  · simp at h

theorem processPwm_out_mem (fs : List (String × JVal)) (s : String)
    (h : Ev.out s ∈ processPwmInfo fs) :
    s = "no pwm data" ∨ s = " setting pin " ∨ s = " to value " := by
  unfold processPwmInfo at h
  split at h
  · simp only [prln, List.mem_cons, List.not_mem_nil, or_false] at h
    rcases h with h | h <;> simp_all
  · simp only [pins, List.flatMap_cons, List.flatMap_nil, List.append_nil,
      List.mem_append] at h
    rcases h with h | h <;>
      exact Or.inr (pwmPinStep_out_mem _ _ _ h)

/-- **C10.** `dumpMessage` checks `mac_last_byte` only for presence, not
for integer type: for an item whose sender binds `mac_last_byte` to a
non-integer value, no diagnostic is printed and no abort happens at that
key — the value is coerced by `as<int>()` and printed, and control
reaches the analog section — unlike `processPwmInfo`, which silently skips
any pin whose `pwm` entry is that same non-integer value. -/
theorem dump_mac_presence_only
    (item : JVal) (i : Nat) (sf : Bool) (sender : List (String × JVal))
    (hs : asObjQ (member (asFields item) "sender") = some sender)
    (hk : containsKey sender "mac_last_byte" = true)
    (hv : isIntV (member sender "mac_last_byte") = false) :
    Ev.out "mac_last_byte not acquired" ∉ (stepItem item i sf).1
    ∧ (∃ tail, (stepItem item i sf).1
        = [Ev.out "Msg #", Ev.outNum (Int.ofNat (i + 1)), Ev.newline]
          ++ processPwmInfo (asFields item)
          ++ [Ev.out " mac_last_byte: ",
              Ev.outNum (asInt (member sender "mac_last_byte")),
              Ev.out " A2: "] ++ tail)
    ∧ Ev.out " A2: " ∈ (stepItem item i sf).1
    ∧ (∀ pwm : List (String × JVal), ∀ p : Nat,
        member pwm (toString p) = member sender "mac_last_byte" →
        pwmPinStep pwm p = []) := by
  have hnot : Ev.out "mac_last_byte not acquired"
      ∉ processPwmInfo (asFields item) := by
    intro hmem
    rcases processPwm_out_mem _ _ hmem with h' | h' | h' <;> simp_all
  have hskip : ∀ pwm : List (String × JVal), ∀ p : Nat,
      member pwm (toString p) = member sender "mac_last_byte" →
      pwmPinStep pwm p = [] := by
    intro pwm p hval
    simp [pwmPinStep, hval, hv]
  rcases hA : asArrQ (member (asFields item) "analog") with _ | analog
  · have htr := stepItem_sender_analogNone item i sf sender hs hk hA
    rw [htr]
    refine ⟨?_, ⟨[Ev.out "analog not acquired", Ev.newline, Ev.delayMs 1000],
      by simp⟩, by simp, hskip⟩
    simp [hnot]
  · by_cases hlen : analog.length < 3
    · have htr := stepItem_sender_analogShort item i sf sender analog hs hk hA hlen
      rw [htr]
      refine ⟨?_, ⟨[Ev.out "analog[2] not acquired", Ev.newline,
        Ev.delayMs 1000], by simp⟩, by simp, hskip⟩
      simp [hnot]
    · have htr := stepItem_sender_ok item i sf sender analog hs hk hA hlen
      rw [htr]
      refine ⟨?_, ⟨[Ev.outNum (asInt (analog.getD 2 JVal.null)), Ev.newline],
        by simp⟩, by simp, hskip⟩
      simp [hnot]

/-- Witness for C10: a sender carrying `"mac_last_byte": "x"` (a string)
passes the presence check and reaches the analog section with no
diagnostic. -/
theorem dump_mac_presence_only_witness :
    Ev.out " A2: "
      ∈ (stepItem (JVal.obj
          [("sender", JVal.obj [("mac_last_byte", JVal.jstr "x")]),
           ("analog", JVal.arr [JVal.jint 1, JVal.jint 2, JVal.jint 3])])
          0 false).1
    ∧ Ev.out "mac_last_byte not acquired"
      ∉ (stepItem (JVal.obj
          [("sender", JVal.obj [("mac_last_byte", JVal.jstr "x")]),
           ("analog", JVal.arr [JVal.jint 1, JVal.jint 2, JVal.jint 3])])
          0 false).1 := by
  exact ⟨(dump_mac_presence_only (JVal.obj
            [("sender", JVal.obj [("mac_last_byte", JVal.jstr "x")]),
             ("analog", JVal.arr [JVal.jint 1, JVal.jint 2, JVal.jint 3])])
            0 false [("mac_last_byte", JVal.jstr "x")] rfl rfl rfl).2.2.1,
         (dump_mac_presence_only (JVal.obj
            [("sender", JVal.obj [("mac_last_byte", JVal.jstr "x")]),
             ("analog", JVal.arr [JVal.jint 1, JVal.jint 2, JVal.jint 3])])
            0 false [("mac_last_byte", JVal.jstr "x")] rfl rfl rfl).1⟩

end PubNubJson
